import Mathlib

/-!
Formal model of the storage daemon's bootstrap (`main.cpp` of
`android_system_vold`): the disk-source configuration builder
(`process_config`), the kernel-command-line SDCARD scanner and its
device-name normalization, the sysfs coldboot walk (`do_coldboot` /
`coldboot`), and the bootstrap ordering of `vold_main`.

Strings from the C++ code (`std::string`) are modelled as `List Char`;
machine `int` values as `Int`.  External collaborators (fs_mgr, the
VolumeManager registry, `access(2)`, `/proc/cmdline`) are modelled as
explicit inputs in an environment record, exactly as the code consumes
them.
-/

/-- Substring test: `s.find(pat) != std::string::npos`, i.e. `pat` occurs
contiguously inside `s`. -/
def containsSub (pat : List Char) : List Char → Bool
  | [] => pat.isEmpty
  | c :: rest => pat.isPrefixOf (c :: rest) || containsSub pat rest

/-- First-occurrence search: `s.find(pat)` returning the index of the first
occurrence of `pat` in `s`, or `none` for `npos`. -/
def findSub (pat : List Char) : List Char → Option Nat
  | [] => if pat.isEmpty then some 0 else none
  | c :: rest =>
      if pat.isPrefixOf (c :: rest) then some 0
      else (findSub pat rest).map (· + 1)

/-- Decimal parse of a digit string, modelling `std::stoi` on the all-digit
tokens the code feeds it (the trailing digit run).  Out-of-`int`-range
inputs, on which `std::stoi` would throw, are modelled by the unbounded
mathematical value. -/
def stoi (s : List Char) : Int :=
  Int.ofNat ((s.takeWhile Char.isDigit).foldl (fun n c => 10 * n + (c.toNat - 48)) 0)

/-- Bitset over `android::vold::Disk::Flags` as used by `process_config`. -/
structure Flags where
  kAdoptable : Bool := false
  kDefaultPrimary : Bool := false
  kNonRemovable : Bool := false
  deriving DecidableEq

/-- Argument tuple of `VolumeManager::DiskSource(sysPattern, nickname,
partnum, flags, fstype, mntopts)`. -/
structure DiskSource where
  sysPattern : List Char
  nickname : List Char
  partnum : Int
  flags : Flags
  fstype : List Char
  mntopts : List Char
  deriving DecidableEq

/-- One fstab record, with the fields and fs_mgr attribute predicates
`process_config` consumes (`fs_mgr_is_voldmanaged` and friends are modelled
as boolean fields). `fs_type`/`fs_options` may be null pointers in the C
struct, hence `Option`. -/
structure FstabRec where
  blk_device : List Char
  fs_type : Option (List Char)
  fs_options : Option (List Char)
  label : List Char
  partnum : Int
  voldmanaged : Bool
  encryptable : Bool
  noemulatedsd : Bool
  nonremovable : Bool
  deriving DecidableEq

/-- The rule built for one vold-managed fstab entry (body of the `for` loop
of `process_config`, lines 243-271): flags accumulate by successive `|=`. -/
def fstabRule (debugDefaultPrimary : Bool) (r : FstabRec) : DiskSource :=
  let flags : Flags := {}
  let flags := if r.encryptable then { flags with kAdoptable := true } else flags
  let flags :=
    if r.noemulatedsd || debugDefaultPrimary then { flags with kDefaultPrimary := true }
    else flags
  let flags := if r.nonremovable then { flags with kNonRemovable := true } else flags
  { sysPattern := r.blk_device
    nickname := r.label
    partnum := r.partnum
    flags := flags
    fstype := r.fs_type.getD []
    mntopts := r.fs_options.getD [] }

/-- One iteration of the fstab loop: the accumulator is the list of rules
handed to `vm->addDiskSource` so far together with the current value of
`*has_adoptable`. -/
def fstabStep (debugDefaultPrimary : Bool) (acc : List DiskSource × Bool) (r : FstabRec) :
    List DiskSource × Bool :=
  if r.voldmanaged then (acc.1 ++ [fstabRule debugDefaultPrimary r], acc.2 || r.encryptable)
  else acc

/-- The fstab loop of `process_config` (lines 241-273): starts from
`*has_adoptable = false` and no rules. -/
def fstabPhase (debugDefaultPrimary : Bool) (recs : List FstabRec) :
    List DiskSource × Bool :=
  recs.foldl (fstabStep debugDefaultPrimary) ([], false)

/-- SDCARD device-name normalization (lines 281-297).  `isBlockDisk` is the
result of the `access("/sys/block/" + sdcard, X_OK) == 0` probe: when the
probe succeeds the token already names a whole disk and the block is
skipped; otherwise the trailing digit run is parsed as the partition number
and stripped, and one extra trailing character is dropped for
`mmcblk`/`nvme`-style names.  Returns the final device name and `partnum`. -/
def normalizeSdcard (isBlockDisk : Bool) (sdcard0 : List Char) : List Char × Int :=
  if isBlockDisk then (sdcard0, -1)
  else
    let pos := sdcard0.length - (sdcard0.reverse.takeWhile Char.isDigit).length
    if pos ≠ sdcard0.length then
      let partnum := stoi (sdcard0.drop pos)
      let sdcard := sdcard0.take pos
      let sdcard := if containsSub "mmcblk".toList sdcard then sdcard.take (pos - 1) else sdcard
      let sdcard := if containsSub "nvme".toList sdcard then sdcard.take (pos - 1) else sdcard
      (sdcard, partnum)
    else (sdcard0, -1)

/-- Extraction of the raw SDCARD token from the command line (lines
276-280): the text after the first `SDCARD=` up to the next space or
newline; `none` when the key is absent or the token is empty. -/
def sdcardToken (content : List Char) : Option (List Char) :=
  match findSub "SDCARD=".toList content with
  | none => none
  | some pos =>
      let sdcard := (content.drop (pos + 7)).takeWhile (fun c => !(c == ' ' || c == '\n'))
      if sdcard.isEmpty then none else some sdcard

/-- The SDCARD block of `process_config` (lines 275-304): the rule handed to
`addDiskSource` for a present, non-empty token, after normalization.
`sysBlockAccessOk` models `access("/sys/block/" + tok, X_OK) == 0`. -/
def scanCmdline (sysBlockAccessOk : List Char → Bool) (content : List Char) :
    Option DiskSource :=
  match sdcardToken content with
  | none => none
  | some sdcard =>
      let nd := normalizeSdcard (sysBlockAccessOk sdcard) sdcard
      some
        { sysPattern := "/devices/*/".toList ++ nd.1
          nickname := nd.1
          partnum := nd.2
          flags := { kAdoptable := true, kDefaultPrimary := false, kNonRemovable := false }
          fstype := "auto".toList
          mntopts := [] }

/-- Environment consumed by `process_config`: the fstab load result
(`none` = `fs_mgr_read_fstab` returned null), the
`vold.debug.default_primary` property, the `/proc/cmdline` read result
(`none` = `ReadFileToString` failed), and the `access(2)` probe. -/
structure Env where
  fstab : Option (List FstabRec)
  debugDefaultPrimary : Bool
  cmdline : Option (List Char)
  sysBlockAccessOk : List Char → Bool

/-- `process_config` (lines 232-309).  Result: the `int` return code, the
rules passed to `vm->addDiskSource` in call order, and the final value of
the `*has_adoptable` out-parameter — `none` meaning the function returned
without ever writing it (the early `return -1` at line 237). -/
def process_config (env : Env) : Int × List DiskSource × Option Bool :=
  match env.fstab with
  | none => (-1, [], none)
  | some recs =>
      let fst := fstabPhase env.debugDefaultPrimary recs
      match env.cmdline with
      | none => (0, fst.1, some fst.2)
      | some content =>
          match scanCmdline env.sysBlockAccessOk content with
          | none => (0, fst.1, some fst.2)
          | some d => (0, fst.1 ++ [d], some true)

/-- Observable bootstrap events of `vold_main`. -/
inductive Event where
  | addDiskSource : DiskSource → Event
  | logConfigError : Event
  | coldbootTrigger : Event
  | exitFatal : Event
  | setHasAdoptable : Option Bool → Event
  deriving DecidableEq

/-- Environment for `vold_main`: success of the singleton constructions and
of the `start()` / `startListener()` calls, plus the `process_config`
environment. -/
structure VEnv where
  vmInstanceOk : Bool
  nmInstanceOk : Bool
  vmStartOk : Bool
  nmStartOk : Bool
  clStartOk : Bool
  cclStartOk : Bool
  cfg : Env

/-- Event trace of `vold_main` from the singleton setup onward (lines
97-154): a failed mandatory step exits; a failed `process_config` only
logs; `coldboot("/sys/block")` runs after the configuration phase and
before the listeners; finally `vold.has_adoptable` is published from the
out-parameter (`none` = it was never initialized). -/
def vold_main (v : VEnv) : List Event :=
  if !v.vmInstanceOk then [Event.exitFatal]
  else if !v.nmInstanceOk then [Event.exitFatal]
  else if !v.vmStartOk then [Event.exitFatal]
  else
    let pc := process_config v.cfg
    pc.2.1.map Event.addDiskSource
    ++ (if pc.1 ≠ 0 then [Event.logConfigError] else [])
    ++ (if !v.nmStartOk then [Event.exitFatal]
        else Event.coldbootTrigger ::
          (if !v.clStartOk then [Event.exitFatal]
           else if !v.cclStartOk then [Event.exitFatal]
           else [Event.setHasAdoptable pc.2.2]))

/-- A sysfs directory as the walk observes it: whether `openat(dfd,
"uevent", O_WRONLY)` succeeds in it, and its `readdir` entries in
enumeration order.  Each entry carries its name, its `d_type == DT_DIR`
bit, and `some subtree` when `openat(O_RDONLY|O_DIRECTORY)` + `fdopendir`
on it succeed (`none` when either fails). -/
inductive FTree : Type where
  | node : Bool → List (List Char × Bool × Option FTree) → FTree

/-- A uevent write attempt: the path (as components from the walk root) of
the `uevent` file opened for writing, and the bytes written to it. -/
abbrev UWrite := List (List Char) × List Char

mutual
/-- The recursive walk `do_coldboot(d, lvl)` (lines 189-222), returning the
uevent write attempts in program order. -/
def do_coldboot : FTree → Nat → List (List Char) → List UWrite
  | FTree.node uv es, lvl, p =>
      (if uv then [(p ++ ["uevent".toList], "add\n".toList)] else []) ++
      coldbootEntries es lvl p

/-- The `readdir` loop of `do_coldboot` (lines 201-221): dot entries are
skipped; non-directory entries are skipped when `lvl > 0`; entries that
fail to open as a directory contribute nothing; the rest are recursed
into. -/
def coldbootEntries : List (List Char × Bool × Option FTree) → Nat → List (List Char) →
    List UWrite
  | [], _, _ => []
  | (nm, d, sub) :: rest, lvl, p =>
      (if nm.head? = some '.' then []
       else if d = false ∧ lvl > 0 then []
       else match sub with
         | none => []
         | some t => do_coldboot t (lvl + 1) (p ++ [nm])) ++
      coldbootEntries rest lvl p
end

/-- `coldboot(path)` (lines 224-230): `opendir` failure (`none`) makes the
whole trigger a no-op. -/
def coldboot : Option FTree → List UWrite
  | none => []
  | some t => do_coldboot t 0 []

/-- Contribution of a single `readdir` entry to the walk, used to relate
the loop to `List.flatMap`. -/
def entryWrites (lvl : Nat) (p : List (List Char)) (e : List Char × Bool × Option FTree) :
    List UWrite :=
  if e.1.head? = some '.' then []
  else if e.2.1 = false ∧ lvl > 0 then []
  else match e.2.2 with
    | none => []
    | some t => do_coldboot t (lvl + 1) (p ++ [e.1])

mutual
/-- Height of a sysfs tree (fuel for inductions over the nested tree). -/
def depth : FTree → Nat
  | FTree.node _ es => depthE es + 1

/-- Height of a list of entries. -/
def depthE : List (List Char × Bool × Option FTree) → Nat
  | [] => 0
  | (_, _, none) :: rest => depthE rest
  | (_, _, some t) :: rest => max (depth t) (depthE rest)
end

/-- Pointwise relation on directory entries: same name, same `d_type`, and
subtrees (when both open) related by `R`. -/
def EntryRel (R : FTree → FTree → Prop) (a b : List Char × Bool × Option FTree) : Prop :=
  a.1 = b.1 ∧ a.2.1 = b.2.1 ∧
    ((a.2.2 = none ∧ b.2.2 = none) ∨
     ∃ t t', a.2.2 = some t ∧ b.2.2 = some t' ∧ R t t')

/-- Two observations of the same unchanged device tree, `n` being a bound
on the tree height: every directory lists the same entries, possibly in a
different `readdir` enumeration order, recursively. -/
def ReordersN : Nat → FTree → FTree → Prop
  | 0, _, _ => False
  | n + 1, FTree.node uv es, FTree.node uv' es' =>
      uv = uv' ∧ ∃ mid, List.Forall₂ (EntryRel (ReordersN n)) es mid ∧ mid.Perm es'

/-! ### Characterization of the fstab loop -/

/-- Accumulator-generalized description of the fstab loop. -/
lemma fstabPhase_go (debug : Bool) :
    ∀ (recs : List FstabRec) (acc : List DiskSource × Bool),
      (recs.foldl (fstabStep debug) acc).1 =
        acc.1 ++ (recs.filter (fun r => r.voldmanaged)).map (fstabRule debug) ∧
      (recs.foldl (fstabStep debug) acc).2 =
        (acc.2 || recs.any (fun r => r.voldmanaged && r.encryptable)) := by
  intro recs
  induction recs with
  | nil => intro acc; simp
  | cons r rest ih =>
      intro acc
      cases hv : r.voldmanaged with
      | false =>
          have := ih acc
          simp only [List.foldl_cons, fstabStep, hv] at this ⊢
          simpa [hv] using this
      | true =>
          have := ih (acc.1 ++ [fstabRule debug r], acc.2 || r.encryptable)
          simp only [List.foldl_cons, fstabStep, hv] at this ⊢
          simp [hv, this.1, this.2, List.append_assoc, Bool.or_assoc]

/-- C4: a rule is produced exactly for the vold-managed entries, in order;
the adoptable output is true exactly when some vold-managed entry is
encryptable; and each rule's flags are: Adoptable iff encryptable,
DefaultPrimary iff no-emulated-storage or the debug override, NonRemovable
iff non-removable. -/
theorem fstab_rule_production (debug : Bool) (recs : List FstabRec) :
    (fstabPhase debug recs).1 =
      (recs.filter (fun r => r.voldmanaged)).map (fstabRule debug) ∧
    (fstabPhase debug recs).2 =
      recs.any (fun r => r.voldmanaged && r.encryptable) ∧
    ∀ r : FstabRec,
      (fstabRule debug r).flags.kAdoptable = r.encryptable ∧
      (fstabRule debug r).flags.kDefaultPrimary = (r.noemulatedsd || debug) ∧
      (fstabRule debug r).flags.kNonRemovable = r.nonremovable := by
  refine ⟨?_, ?_, ?_⟩
  · have := fstabPhase_go debug recs ([], false)
    simpa [fstabPhase] using this.1
  · have := fstabPhase_go debug recs ([], false)
    simpa [fstabPhase] using this.2
  · intro r
    rcases r with ⟨bd, ft, fo, lb, pn, vm, enc, noemu, nonrem⟩
    cases enc <;> cases noemu <;> cases nonrem <;> cases debug <;> simp [fstabRule]

/-! ### Failure of the fstab load (C1, C10) -/

/-- C10: with a failed fstab load, `process_config` returns `-1` at once:
no rules, and the `has_adoptable` out-parameter is never written. -/
theorem process_config_fail_skips_cmdline (env : Env) (hf : env.fstab = none) :
    process_config env = (-1, [], none) := by
  simp [process_config, hf]

/-- Concrete environment: fstab load fails while the command line carries a
non-empty SDCARD token. -/
def envFailB : Env :=
  { fstab := none, debugDefaultPrimary := false,
    cmdline := some "SDCARD=mmcblk1p2 rw".toList,
    sysBlockAccessOk := fun _ => false }

theorem process_config_fail_skips_cmdline_witness :
    envFailB.fstab = none ∧
    sdcardToken "SDCARD=mmcblk1p2 rw".toList = some "mmcblk1p2".toList ∧
    process_config envFailB = (-1, [], none) :=
  ⟨rfl, by decide, process_config_fail_skips_cmdline envFailB rfl⟩

/-- Concrete environment with a failed fstab load, for C1. -/
def envFailA : Env :=
  { fstab := none, debugDefaultPrimary := false,
    cmdline := some "SDCARD=sda1".toList, sysBlockAccessOk := fun _ => false }

/-- C1 counterexample: on fstab load failure the adoptable out-parameter is
not set to false — the function returns before writing it at all. -/
theorem process_config_fail_adoptable_counterexample :
    envFailA.fstab = none ∧ (process_config envFailA).2.2 ≠ some false :=
  ⟨rfl, by decide⟩

/-- C1 (amended): a fstab load failure yields an empty rule list, leaves
the adoptable output unwritten (rather than setting it to false), and is
non-fatal: `vold_main` logs the error and continues through the coldboot
trigger and listener startup. -/
theorem process_config_fail_nonfatal (v : VEnv)
    (hf : v.cfg.fstab = none)
    (h1 : v.vmInstanceOk = true) (h2 : v.nmInstanceOk = true)
    (h3 : v.vmStartOk = true) (h4 : v.nmStartOk = true) :
    process_config v.cfg = (-1, [], none) ∧
    vold_main v =
      Event.logConfigError :: Event.coldbootTrigger ::
        (if !v.clStartOk then [Event.exitFatal]
         else if !v.cclStartOk then [Event.exitFatal]
         else [Event.setHasAdoptable none]) := by
  have hpc : process_config v.cfg = (-1, [], none) := by simp [process_config, hf]
  refine ⟨hpc, ?_⟩
  simp [vold_main, h1, h2, h3, h4, hpc]

/-- Bootstrap environment whose fstab load fails but all mandatory steps
succeed. -/
def venvC1 : VEnv :=
  { vmInstanceOk := true, nmInstanceOk := true, vmStartOk := true,
    nmStartOk := true, clStartOk := true, cclStartOk := true, cfg := envFailA }

theorem process_config_fail_nonfatal_witness :
    process_config venvC1.cfg = (-1, [], none) ∧
    vold_main venvC1 =
      Event.logConfigError :: Event.coldbootTrigger ::
        (if !venvC1.clStartOk then [Event.exitFatal]
         else if !venvC1.cclStartOk then [Event.exitFatal]
         else [Event.setHasAdoptable none]) :=
  process_config_fail_nonfatal venvC1 rfl rfl rfl rfl rfl

/-! ### SDCARD whole-disk and no-digit cases (C3) -/

/-- C3: a token whose sysfs block probe succeeds is taken as a whole disk
(name unchanged, partition number `-1`); and without the probe, a token
with no trailing decimal digits is also left unchanged with no partition
number. -/
theorem sdcard_wholedisk :
    (∀ s : List Char, normalizeSdcard true s = (s, -1)) ∧
    (∀ s : List Char, s.reverse.takeWhile Char.isDigit = [] →
      normalizeSdcard false s = (s, -1)) := by
  constructor
  · intro s; rfl
  · intro s h
    simp [normalizeSdcard, h]

theorem sdcard_wholedisk_witness :
    "sda".toList.reverse.takeWhile Char.isDigit = [] ∧
    normalizeSdcard true "sda".toList = ("sda".toList, -1) ∧
    normalizeSdcard false "sda".toList = ("sda".toList, -1) :=
  ⟨by decide, sdcard_wholedisk.1 "sda".toList, sdcard_wholedisk.2 "sda".toList (by decide)⟩

/-! ### Missing or empty SDCARD token (C5) -/

/-- C5: when `/proc/cmdline` is unreadable, contains no `SDCARD=` key, or
the text after the key up to the next space/newline is empty, the SDCARD
scanner contributes no rule and `process_config` returns exactly the fstab
phase's rules and adoptable flag. -/
theorem cmdline_no_token_frame (env : Env) (recs : List FstabRec)
    (hf : env.fstab = some recs)
    (h : env.cmdline = none ∨
         ∃ content, env.cmdline = some content ∧
           (findSub "SDCARD=".toList content = none ∨
            ∃ pos, findSub "SDCARD=".toList content = some pos ∧
              ((content.drop (pos + 7)).takeWhile
                  (fun c => !(c == ' ' || c == '\n'))).isEmpty = true)) :
    process_config env =
      (0, (fstabPhase env.debugDefaultPrimary recs).1,
        some (fstabPhase env.debugDefaultPrimary recs).2) := by
  rcases h with hc | ⟨content, hc, ht⟩
  · simp [process_config, hf, hc]
  · have htok : sdcardToken content = none := by
      rcases ht with ht | ⟨pos, hp, he⟩
      · unfold sdcardToken
        rw [ht]
      · unfold sdcardToken
        rw [hp]
        simp only [he, if_true]
    simp [process_config, hf, hc, scanCmdline, htok]

/-- Concrete environment whose command line has `SDCARD=` followed
immediately by a space (empty token). -/
def envC5 : Env :=
  { fstab := some [], debugDefaultPrimary := false,
    cmdline := some "SDCARD= quiet".toList, sysBlockAccessOk := fun _ => false }

theorem cmdline_no_token_frame_witness :
    process_config envC5 =
      (0, (fstabPhase envC5.debugDefaultPrimary []).1,
        some (fstabPhase envC5.debugDefaultPrimary []).2) :=
  cmdline_no_token_frame envC5 [] rfl
    (Or.inr ⟨"SDCARD= quiet".toList, rfl, Or.inr ⟨0, by decide, by decide⟩⟩)

/-! ### SDCARD partition-number extraction (C2) -/

/-- C2: for a token that is not an accessible whole disk and ends in at
least one decimal digit (`pos`, the index where the maximal trailing digit
run starts, is not the whole length), the digit run is parsed as the
partition number and stripped, and one further trailing character is
stripped exactly when the digit-stripped name contains `mmcblk` or `nvme`;
with the three normalization examples from the specification. -/
theorem sdcard_normalization :
    (∀ (s : List Char) (pos : Nat),
        pos = s.length - (s.reverse.takeWhile Char.isDigit).length →
        pos ≠ s.length →
        normalizeSdcard false s =
          (if containsSub "mmcblk".toList (s.take pos) || containsSub "nvme".toList (s.take pos)
           then s.take (pos - 1) else s.take pos,
           stoi (s.drop pos))) ∧
    normalizeSdcard false "mmcblk0p12".toList = ("mmcblk0".toList, 12) ∧
    normalizeSdcard false "nvme0n1p3".toList = ("nvme0n1".toList, 3) ∧
    normalizeSdcard false "sda1".toList = ("sda".toList, 1) := by
  refine ⟨?_, by decide, by decide, by decide⟩
  intro s pos hpos hne
  subst hpos
  unfold normalizeSdcard
  simp only [Bool.false_eq_true, if_false]
  rw [if_pos hne]
  cases h1 : containsSub "mmcblk".toList
      (s.take (s.length - (List.takeWhile Char.isDigit s.reverse).length)) with
  | true =>
      simp [List.take_take, Nat.min_eq_left (Nat.sub_le _ 1)]
  | false =>
      rw [if_neg Bool.false_ne_true]
      cases h2 : containsSub "nvme".toList
          (s.take (s.length - (List.takeWhile Char.isDigit s.reverse).length)) with
      | true => simp [List.take_take, Nat.min_eq_left (Nat.sub_le _ 1)]
      | false => simp

theorem sdcard_normalization_witness :
    (8 : Nat) = "mmcblk0p12".toList.length -
        ("mmcblk0p12".toList.reverse.takeWhile Char.isDigit).length ∧
    (8 : Nat) ≠ "mmcblk0p12".toList.length ∧
    normalizeSdcard false "mmcblk0p12".toList =
      (if containsSub "mmcblk".toList ("mmcblk0p12".toList.take 8) ||
          containsSub "nvme".toList ("mmcblk0p12".toList.take 8)
       then "mmcblk0p12".toList.take (8 - 1) else "mmcblk0p12".toList.take 8,
       stoi ("mmcblk0p12".toList.drop 8)) :=
  ⟨by decide, by decide,
    sdcard_normalization.1 "mmcblk0p12".toList 8 (by decide) (by decide)⟩

/-! ### Coldboot walk policy (C6) -/

/-- C6: the readdir loop skips every entry whose name begins with a dot; at
depth 0 it descends into an entry of any `d_type` that opens as a
directory; at depth 1 and below it skips non-directory entries outright and
descends only into directory entries. -/
theorem coldboot_walk_policy :
    (∀ (cs : List Char) (d : Bool) (sub : Option FTree)
        (rest : List (List Char × Bool × Option FTree)) (lvl : Nat) (p : List (List Char)),
        coldbootEntries (('.' :: cs, d, sub) :: rest) lvl p = coldbootEntries rest lvl p) ∧
    (∀ (c : Char) (cs : List Char) (d : Bool) (t : FTree)
        (rest : List (List Char × Bool × Option FTree)) (p : List (List Char)),
        c ≠ '.' →
        coldbootEntries ((c :: cs, d, some t) :: rest) 0 p =
          do_coldboot t 1 (p ++ [c :: cs]) ++ coldbootEntries rest 0 p) ∧
    (∀ (nm : List Char) (sub : Option FTree)
        (rest : List (List Char × Bool × Option FTree)) (lvl : Nat) (p : List (List Char)),
        0 < lvl →
        coldbootEntries ((nm, false, sub) :: rest) lvl p = coldbootEntries rest lvl p) ∧
    (∀ (c : Char) (cs : List Char) (t : FTree)
        (rest : List (List Char × Bool × Option FTree)) (lvl : Nat) (p : List (List Char)),
        c ≠ '.' →
        coldbootEntries ((c :: cs, true, some t) :: rest) lvl p =
          do_coldboot t (lvl + 1) (p ++ [c :: cs]) ++ coldbootEntries rest lvl p) := by
  refine ⟨?_, ?_, ?_, ?_⟩
  · intro cs d sub rest lvl p
    cases sub <;> simp [coldbootEntries]
  · intro c cs d t rest p hc
    simp [coldbootEntries, hc]
  · intro nm sub rest lvl p hl
    cases sub <;> simp [coldbootEntries, hl]
  · intro c cs t rest lvl p hc
    simp [coldbootEntries, hc]

theorem coldboot_walk_policy_witness :
    (('s' : Char) ≠ '.' ∧
      coldbootEntries ((['s'], false, some (FTree.node true [])) :: []) 0 [] =
        do_coldboot (FTree.node true []) 1 ([] ++ [['s']]) ++ coldbootEntries [] 0 []) ∧
    ((0 : Nat) < 1 ∧
      coldbootEntries ((['s'], false, some (FTree.node true [])) :: []) 1 [] =
        coldbootEntries [] 1 []) ∧
    (('s' : Char) ≠ '.' ∧
      coldbootEntries ((['s'], true, some (FTree.node true [])) :: []) 2 [] =
        do_coldboot (FTree.node true []) 3 ([] ++ [['s']]) ++ coldbootEntries [] 2 []) :=
  ⟨⟨by decide, coldboot_walk_policy.2.1 's' [] false (FTree.node true []) [] [] (by decide)⟩,
   ⟨by decide, coldboot_walk_policy.2.2.1 ['s'] (some (FTree.node true [])) [] 1 [] (by decide)⟩,
   ⟨by decide, coldboot_walk_policy.2.2.2 's' [] (FTree.node true []) [] 2 [] (by decide)⟩⟩

/-! ### Coldboot error handling (C7) -/

/-- Every tree has height at least one. -/
lemma depth_pos (t : FTree) : 0 < depth t := by
  cases t
  simp [depth]

/-- Dropping the head entry cannot increase the height. -/
lemma depthE_tail_le (e : List Char × Bool × Option FTree)
    (rest : List (List Char × Bool × Option FTree)) :
    depthE rest ≤ depthE (e :: rest) := by
  rcases e with ⟨nm, d, sub⟩
  cases sub with
  | none => simp [depthE]
  | some t => simp [depthE]

/-- Height-bounded induction: every write the walk attempts carries the
literal payload bytes. -/
lemma coldboot_payload_aux :
    ∀ (n : Nat),
      (∀ (t : FTree) (lvl : Nat) (p : List (List Char)),
          depth t ≤ n → ∀ w ∈ do_coldboot t lvl p, w.2 = "add\n".toList) ∧
      (∀ (es : List (List Char × Bool × Option FTree)) (lvl : Nat) (p : List (List Char)),
          depthE es ≤ n → ∀ w ∈ coldbootEntries es lvl p, w.2 = "add\n".toList) := by
  intro n
  induction n with
  | zero =>
      constructor
      · intro t lvl p ht
        exact absurd ht (by simpa using Nat.not_le.mpr (depth_pos t))
      · intro es lvl p
        induction es with
        | nil => intro _ w hw; simp [coldbootEntries] at hw
        | cons e rest ihe =>
            rcases e with ⟨nm, d, sub⟩
            cases sub with
            | none =>
                intro he w hw
                simp [coldbootEntries] at hw
                exact ihe (le_trans (depthE_tail_le _ _) he) w (by simpa using hw)
            | some t =>
                intro he w hw
                exfalso
                have h1 : depth t ≤ depthE ((nm, d, some t) :: rest) := by
                  simp [depthE]
                have := le_trans h1 he
                exact absurd this (Nat.not_le.mpr (depth_pos t))
  | succ n ih =>
      have hP : ∀ (t : FTree) (lvl : Nat) (p : List (List Char)),
          depth t ≤ n + 1 → ∀ w ∈ do_coldboot t lvl p, w.2 = "add\n".toList := by
        intro t lvl p ht w hw
        cases t with
        | node uv es =>
            simp [do_coldboot] at hw
            rcases hw with hw | hw
            · cases uv with
              | true => simp at hw; simp [hw]
              | false => simp at hw
            · have hes : depthE es ≤ n := by
                have : depthE es + 1 ≤ n + 1 := by simpa [depth] using ht
                omega
              exact ih.2 es lvl p hes w hw
      refine ⟨hP, ?_⟩
      intro es lvl p
      induction es with
      | nil => intro _ w hw; simp [coldbootEntries] at hw
      | cons e rest ihe =>
          rcases e with ⟨nm, d, sub⟩
          intro he w hw
          cases sub with
          | none =>
              simp [coldbootEntries] at hw
              exact ihe (le_trans (depthE_tail_le _ _) he) w (by simpa using hw)
          | some t =>
              simp [coldbootEntries] at hw
              rcases hw with hw | hw
              · rcases hw with ⟨hc1, hc2, hw⟩
                exact hP t (lvl + 1) (p ++ [nm])
                  (le_trans (by simp [depthE]) he) w hw
              · exact ihe (le_trans (depthE_tail_le _ _) he) w hw

/-- C7: an unopenable root makes the trigger a no-op; every attempted
uevent write carries exactly the bytes `add\n`; a failed uevent open only
removes that one write and leaves the rest of the walk unchanged; and an
entry that fails to open as a directory aborts only its own subtree,
leaving the sibling walk untouched. -/
theorem coldboot_error_handling :
    coldboot none = [] ∧
    (∀ (root : Option FTree) (w : UWrite), w ∈ coldboot root → w.2 = "add\n".toList) ∧
    (∀ (es : List (List Char × Bool × Option FTree)) (lvl : Nat) (p : List (List Char)),
        do_coldboot (FTree.node true es) lvl p =
          (p ++ ["uevent".toList], "add\n".toList) :: do_coldboot (FTree.node false es) lvl p) ∧
    (∀ (nm : List Char) (d : Bool) (rest : List (List Char × Bool × Option FTree))
        (lvl : Nat) (p : List (List Char)),
        coldbootEntries ((nm, d, none) :: rest) lvl p = coldbootEntries rest lvl p) := by
  refine ⟨rfl, ?_, ?_, ?_⟩
  · intro root w hw
    cases root with
    | none => simp [coldboot] at hw
    | some t =>
        exact (coldboot_payload_aux (depth t)).1 t 0 [] (le_refl _) w
          (by simpa [coldboot] using hw)
  · intro es lvl p
    simp [do_coldboot]
  · intro nm d rest lvl p
    simp [coldbootEntries]

theorem coldboot_error_handling_witness :
    (["uevent".toList], "add\n".toList) ∈ coldboot (some (FTree.node true [])) ∧
    ((["uevent".toList], "add\n".toList) : UWrite).2 = "add\n".toList :=
  ⟨by decide, coldboot_error_handling.2.1 (some (FTree.node true []))
      (["uevent".toList], "add\n".toList) (by decide)⟩

/-! ### Coldboot determinism up to enumeration order (C8) -/

/-- The readdir loop is the concatenation of the per-entry contributions. -/
lemma coldbootEntries_eq_flatMap :
    ∀ (es : List (List Char × Bool × Option FTree)) (lvl : Nat) (p : List (List Char)),
      coldbootEntries es lvl p = es.flatMap (entryWrites lvl p) := by
  intro es lvl p
  induction es with
  | nil => simp [coldbootEntries]
  | cons e rest ih =>
      rcases e with ⟨nm, d, sub⟩
      cases sub with
      | none => simp [coldbootEntries, entryWrites, ih]
      | some t => simp [coldbootEntries, entryWrites, ih]

/-- Reordered observations of the same tree produce permuted write lists. -/
lemma reorders_perm_aux :
    ∀ (n : Nat) (t t' : FTree), ReordersN n t t' →
      ∀ (lvl : Nat) (p : List (List Char)),
        (do_coldboot t lvl p).Perm (do_coldboot t' lvl p) := by
  intro n
  induction n with
  | zero =>
      intro t t' h
      cases t; cases t'
      simp only [ReordersN] at h
  | succ n ih =>
      intro t t' h lvl p
      cases t with
      | node uv es =>
          cases t' with
          | node uv' es' =>
              simp only [ReordersN] at h
              obtain ⟨huv, mid, hf2, hperm⟩ := h
              subst huv
              have h1 : (coldbootEntries es lvl p).Perm (coldbootEntries mid lvl p) := by
                clear hperm
                induction hf2 with
                | nil => exact List.Perm.refl _
                | cons hab hrest ihf =>
                    rw [coldbootEntries_eq_flatMap, coldbootEntries_eq_flatMap]
                    simp only [List.flatMap_cons]
                    refine List.Perm.append ?_
                      (by simpa [coldbootEntries_eq_flatMap] using ihf)
                    rename_i a b l1 l2
                    rcases a with ⟨nm, d, sub⟩
                    rcases b with ⟨nm', d', sub'⟩
                    obtain ⟨e1, e2, e3⟩ := hab
                    dsimp only at e1 e2
                    subst e1
                    subst e2
                    rcases e3 with ⟨hn, hn'⟩ | ⟨t1, t2, hs, hs', hr⟩
                    · dsimp only at hn hn'
                      subst hn
                      subst hn'
                      exact List.Perm.refl _
                    · dsimp only at hs hs'
                      subst hs
                      subst hs'
                      simp only [entryWrites]
                      split
                      · exact List.Perm.refl _
                      · split
                        · exact List.Perm.refl _
                        · exact ih t1 t2 hr (lvl + 1) _
              have h2 : (coldbootEntries mid lvl p).Perm (coldbootEntries es' lvl p) := by
                rw [coldbootEntries_eq_flatMap, coldbootEntries_eq_flatMap]
                exact hperm.flatMap_right _
              simp only [do_coldboot]
              exact List.Perm.append_left _ (h1.trans h2)

/-- C8: two coldboot runs over the same unchanged device tree — i.e. over
observations that differ only in per-directory readdir enumeration order —
attempt the same multiset of uevent writes, hence exactly the same set of
uevent targets. -/
theorem coldboot_idempotent_targets (n : Nat) (t t' : FTree) (h : ReordersN n t t') :
    (∀ (lvl : Nat) (p : List (List Char)),
        (do_coldboot t lvl p).Perm (do_coldboot t' lvl p)) ∧
    (∀ w : UWrite, w ∈ coldboot (some t) ↔ w ∈ coldboot (some t')) := by
  refine ⟨reorders_perm_aux n t t' h, ?_⟩
  intro w
  exact (reorders_perm_aux n t t' h 0 []).mem_iff

/-- Concrete two-entry tree for the C8 witness. -/
def cbT1 : FTree :=
  FTree.node true [(['a'], true, some (FTree.node true [])), (['b'], false, none)]

/-- The same tree as `cbT1` enumerated in the opposite order. -/
def cbT2 : FTree :=
  FTree.node true [(['b'], false, none), (['a'], true, some (FTree.node true []))]

theorem coldboot_idempotent_targets_witness :
    ReordersN 2 cbT1 cbT2 ∧
    (do_coldboot cbT1 0 []).Perm (do_coldboot cbT2 0 []) := by
  have hr : ReordersN 2 cbT1 cbT2 := by
    refine ⟨rfl, [(['a'], true, some (FTree.node true [])), (['b'], false, none)], ?_, ?_⟩
    · refine List.Forall₂.cons
        ⟨rfl, rfl, Or.inr ⟨FTree.node true [], FTree.node true [], rfl, rfl, ?_⟩⟩
        (List.Forall₂.cons ⟨rfl, rfl, Or.inl ⟨rfl, rfl⟩⟩ List.Forall₂.nil)
      exact ⟨rfl, [], List.Forall₂.nil, List.Perm.nil⟩
    · exact List.Perm.swap _ _ _
  exact ⟨hr, (coldboot_idempotent_targets 2 cbT1 cbT2 hr).1 0 []⟩

/-! ### Registration precedes the coldboot trigger (C9) -/

/-- Splitting a concatenation at an element absent from the first part:
anything after that element lies in the second part. -/
lemma append_split_no_mem {α : Type} :
    ∀ (s1 s2 pre post : List α) (x y : α),
      x ∉ s1 → y ∉ s2 → s1 ++ s2 = pre ++ x :: post → y ∉ post := by
  intro s1
  induction s1 with
  | nil =>
      intro s2 pre post x y _ hy h hmem
      apply hy
      rw [List.nil_append] at h
      rw [h]
      exact List.mem_append_right _ (List.mem_cons_of_mem _ hmem)
  | cons a s1 ih =>
      intro s2 pre post x y hx hy h
      cases pre with
      | nil =>
          rw [List.cons_append, List.nil_append] at h
          injection h with h1 h2
          subst h1
          exact absurd (List.mem_cons_self a s1) hx
      | cons b pre' =>
          rw [List.cons_append, List.cons_append] at h
          injection h with h1 h2
          exact ih s2 pre' post x y (fun hm => hx (List.mem_cons_of_mem _ hm)) hy h2

/-- C9: in every bootstrap trace, no `addDiskSource` registration occurs
after the coldboot trigger fires — all fstab-derived and SDCARD rules are
registered strictly before the `/sys/block` walk starts. -/
theorem addDiskSource_before_coldboot (v : VEnv) (pre post : List Event) (d : DiskSource)
    (h : vold_main v = pre ++ Event.coldbootTrigger :: post) :
    Event.addDiskSource d ∉ post := by
  unfold vold_main at h
  cases hv1 : v.vmInstanceOk with
  | false =>
      simp only [hv1, Bool.not_false, if_true] at h
      have hmem : Event.coldbootTrigger ∈ ([Event.exitFatal] : List Event) := by
        rw [h]; exact List.mem_append_right _ (List.mem_cons_self _ _)
      simp at hmem
  | true =>
  cases hv2 : v.nmInstanceOk with
  | false =>
      simp only [hv1, hv2, Bool.not_false, Bool.not_true, Bool.false_eq_true, if_false,
        if_true] at h
      have hmem : Event.coldbootTrigger ∈ ([Event.exitFatal] : List Event) := by
        rw [h]; exact List.mem_append_right _ (List.mem_cons_self _ _)
      simp at hmem
  | true =>
  cases hv3 : v.vmStartOk with
  | false =>
      simp only [hv1, hv2, hv3, Bool.not_false, Bool.not_true, Bool.false_eq_true, if_false,
        if_true] at h
      have hmem : Event.coldbootTrigger ∈ ([Event.exitFatal] : List Event) := by
        rw [h]; exact List.mem_append_right _ (List.mem_cons_self _ _)
      simp at hmem
  | true =>
      simp only [hv1, hv2, hv3, Bool.not_true, Bool.false_eq_true, if_false,
        List.append_assoc] at h
      refine append_split_no_mem _ _ _ _ _ _ ?_ ?_ h
      · intro hm
        simp [List.mem_map] at hm
      · intro hm
        rcases List.mem_append.mp hm with hm | hm
        · split at hm <;> simp at hm
        · split at hm
          · simp at hm
          · simp only [List.mem_cons] at hm
            rcases hm with hm | hm
            · simp at hm
            · split at hm
              · simp at hm
              · split at hm <;> simp at hm

/-- Bootstrap environment where every mandatory step succeeds and the
fstab is empty. -/
def venvC9 : VEnv :=
  { vmInstanceOk := true, nmInstanceOk := true, vmStartOk := true,
    nmStartOk := true, clStartOk := true, cclStartOk := true,
    cfg := { fstab := some [], debugDefaultPrimary := false, cmdline := none,
             sysBlockAccessOk := fun _ => false } }

theorem addDiskSource_before_coldboot_witness :
    vold_main venvC9 = [] ++ Event.coldbootTrigger :: [Event.setHasAdoptable (some false)] ∧
    Event.addDiskSource ⟨[], [], 0, ⟨false, false, false⟩, [], []⟩ ∉
      [Event.setHasAdoptable (some false)] :=
  ⟨by decide,
   addDiskSource_before_coldboot venvC9 [] [Event.setHasAdoptable (some false)]
     ⟨[], [], 0, ⟨false, false, false⟩, [], []⟩ (by decide)⟩
